import Mathlib

/-!
Verification of the Bronze-to-Silver supply-chain transformation pipeline
(`Project_Batch_Process.py` / `Project_Single_File.py`).

The numeric columns of the source are IEEE floats.  We embed their values as
exact rationals, extended with the special values NaN, +inf and -inf where a
division can produce them (`FVal`).  Nullable string columns are embedded as
`Option String`; the classifier claims about null scrutinees use a dedicated
row type with nullable numeric fields (`NRow`).
-/

/-- Extended numeric value: a finite rational, NaN, or a signed infinity.
Models the special-value behaviour of the source's float columns. -/
inductive FVal : Type where
  | fin (q : ℚ)
  | nan
  | pinf
  | ninf
deriving DecidableEq

/-- Addition on extended values (IEEE-style: NaN absorbs, opposite
infinities give NaN). -/
def FVal.add : FVal → FVal → FVal
  | .nan, _ => .nan
  | _, .nan => .nan
  | .pinf, .ninf => .nan
  | .ninf, .pinf => .nan
  | .pinf, _ => .pinf
  | _, .pinf => .pinf
  | .ninf, _ => .ninf
  | _, .ninf => .ninf
  | .fin a, .fin b => .fin (a + b)

/-- Division on extended values (IEEE-style: x/0 is NaN when x = 0 and a
signed infinity otherwise; NaN absorbs). -/
def FVal.div : FVal → FVal → FVal
  | .nan, _ => .nan
  | _, .nan => .nan
  | .fin a, .fin b =>
      if b = 0 then (if a = 0 then .nan else if 0 < a then .pinf else .ninf)
      else .fin (a / b)
  | .fin _, .pinf => .fin 0
  | .fin _, .ninf => .fin 0
  | .pinf, .fin b => if 0 ≤ b then .pinf else .ninf
  | .ninf, .fin b => if 0 ≤ b then .ninf else .pinf
  | .pinf, .pinf => .nan
  | .pinf, .ninf => .nan
  | .ninf, .pinf => .nan
  | .ninf, .ninf => .nan

/-- `fill_nan(d)`: replaces NaN by `d`; every other value (finite or
infinite) passes through unchanged.  This is exactly polars `fill_nan`,
which does not touch infinities. -/
def FVal.fillNan : FVal → ℚ → FVal
  | .nan, d => .fin d
  | v, _ => v

/-- Sum of a column of extended values. -/
def sumF (l : List FVal) : FVal := l.foldr FVal.add (.fin 0)

/-- Is `x` a finite value within `eps` of `c`?  NaN and infinities are
within no tolerance of anything. -/
def FVal.within (x : FVal) (c eps : ℚ) : Bool :=
  match x with
  | .fin q => decide (|q - c| ≤ eps)
  | _ => false

/-- The fact-row fields used by the financial, window and trade-route
derivations (non-null numeric columns embedded as exact rationals). -/
structure Row : Type where
  order_item_product_price : ℚ
  order_item_quantity : ℚ
  order_item_discount_rate : ℚ
  order_item_profit_ratio : ℚ
  category_name : String
  market : String
  order_state : Option String
  customer_country : String
  customer_state : String
  order_country : String
deriving DecidableEq

/-- `gross_sales = order_item_product_price * order_item_quantity`. -/
def gross_sales (r : Row) : ℚ :=
  r.order_item_product_price * r.order_item_quantity

/-- `discount_amount = (order_item_product_price * order_item_quantity)
* order_item_discount_rate`. -/
def discount_amount (r : Row) : ℚ :=
  r.order_item_product_price * r.order_item_quantity * r.order_item_discount_rate

/-- `net_revenue = gross_sales - discount_amount`. -/
def net_revenue (r : Row) : ℚ :=
  gross_sales r - discount_amount r

/-- `order_profit_amount = net_revenue * order_item_profit_ratio`. -/
def order_profit_amount (r : Row) : ℚ :=
  net_revenue r * r.order_item_profit_ratio

/-- `total_cost = net_revenue - order_profit_amount`. -/
def total_cost (r : Row) : ℚ :=
  net_revenue r - order_profit_amount r

/-- `margin_leakage_pct = (discount_amount /
(order_profit_amount + discount_amount)).fill_nan(0.0)`. -/
def margin_leakage_pct (r : Row) : FVal :=
  FVal.fillNan
    (FVal.div (.fin (discount_amount r))
      (.fin (order_profit_amount r + discount_amount r)))
    0

/-! ### Window metrics (STEP 5 / STEP 4: contextual window metrics) -/

/-- `category_share_pct = gross_sales / gross_sales.sum().over("category_name")`:
the row's gross sales divided by the total gross sales of its
`category_name` partition. -/
def category_share_pct (tbl : List Row) (r : Row) : FVal :=
  FVal.div (.fin (gross_sales r))
    (.fin (((tbl.filter (fun s => s.category_name = r.category_name)).map gross_sales).sum))

/-- `market_share_pct = gross_sales / gross_sales.sum().over("market")`. -/
def market_share_pct (tbl : List Row) (r : Row) : FVal :=
  FVal.div (.fin (gross_sales r))
    (.fin (((tbl.filter (fun s => s.market = r.market)).map gross_sales).sum))

/-- `state_order_count = order_state.count().over("order_state")`: the
number of non-null `order_state` entries within the row's `order_state`
partition (polars `count` excludes nulls; nulls form their own partition). -/
def state_order_count (tbl : List Row) (r : Row) : ℕ :=
  ((tbl.filter (fun s => s.order_state = r.order_state)).filter
    (fun s => s.order_state.isSome)).length

/-- `state_density_class`: `when(count > 100) -> "Strategic Hub";
when(count < 10) -> "Expansion Zone"; otherwise "Standard Zone"`. -/
def state_density_class (tbl : List Row) (r : Row) : String :=
  if state_order_count tbl r > 100 then "Strategic Hub"
  else if state_order_count tbl r < 10 then "Expansion Zone"
  else "Standard Zone"

/-! ### Trade route (`customer_country.str.replace("EE. UU.", "USA") ...`)

polars `str.replace` interprets its pattern as a regular expression (the
two dots are wildcards matching any character except a newline) and
replaces the leftmost match only, inside the string. -/

/-- The regex pattern `EE. UU.` as a list of character matchers
(`none` is the regex dot: any character except a newline). -/
def patEEUU : List (Option Char) :=
  [some 'E', some 'E', none, some ' ', some 'U', some 'U', none]

/-- Does one pattern element match one character? -/
def matchCharPat (pc : Option Char) (c : Char) : Bool :=
  match pc with
  | some d => decide (d = c)
  | none => decide (c ≠ '\n')

/-- Does the pattern match a prefix of the character list? -/
def matchesAt : List (Option Char) → List Char → Bool
  | [], _ => true
  | _ :: _, [] => false
  | pc :: ps, c :: cs => matchCharPat pc c && matchesAt ps cs

/-- Replace the leftmost match of the `EE. UU.` regex with `USA`. -/
def replaceFirstEEUU : List Char → List Char
  | [] => []
  | c :: cs =>
    if matchesAt patEEUU (c :: cs) then "USA".data ++ (c :: cs).drop patEEUU.length
    else c :: replaceFirstEEUU cs

/-- Does the `EE. UU.` regex match anywhere in the character list? -/
def hasEEUU : List Char → Bool
  | [] => false
  | c :: cs => matchesAt patEEUU (c :: cs) || hasEEUU cs

/-- `customer_country.str.replace("EE. UU.", "USA")` on a string. -/
def strReplaceEEUU (s : String) : String :=
  String.mk (replaceFirstEEUU s.data)

/-- `trade_route = customer_country.str.replace("EE. UU.", "USA")
+ "_" + customer_state + " -> " + order_country`. -/
def trade_route (r : Row) : String :=
  strReplaceEEUU r.customer_country ++ "_" ++ r.customer_state
    ++ " -> " ++ r.order_country

/-- Modelled from the spec: normalization rewrites exactly the one literal
value `EE. UU.` to `USA`, and every other `customer_country` value passes
through unchanged (spec 4.4, `trade_route`).  Used only to compare against
the source's `trade_route`. -/
def trade_route_per_spec (r : Row) : String :=
  (if r.customer_country = "EE. UU." then "USA" else r.customer_country)
    ++ "_" ++ r.customer_state ++ " -> " ++ r.order_country

/-! ### Null-aware categorical classifiers (STEP 4 / STEP 3)

The scrutinised columns are nullable in polars.  A `pl.when` condition
that evaluates to null selects no `when` branch (null is falsy), so the
chain falls through to `otherwise`.  `NRow` carries the nullable fields
these classifiers read. -/

/-- Nullable fields read by the shipping / price classifiers. -/
structure NRow : Type where
  order_item_product_price : Option ℚ
  days_for_shipping_real : Option ℚ
  days_for_shipment_scheduled : Option ℚ
deriving DecidableEq

/-- `shipping_delta = days_for_shipping_real - days_for_shipment_scheduled`
(null when either operand is null). -/
def shipping_delta (r : NRow) : Option ℚ :=
  match r.days_for_shipping_real, r.days_for_shipment_scheduled with
  | some a, some b => some (a - b)
  | _, _ => none

/-- A `<` comparison against a constant: a null operand yields a
non-true (falsy) condition. -/
def condLt (a : Option ℚ) (c : ℚ) : Bool :=
  match a with
  | some x => decide (x < c)
  | none => false

/-- A `<=` comparison against a constant, null falsy. -/
def condLe (a : Option ℚ) (c : ℚ) : Bool :=
  match a with
  | some x => decide (x ≤ c)
  | none => false

/-- An `==` comparison against a constant, null falsy. -/
def condEq (a : Option ℚ) (c : ℚ) : Bool :=
  match a with
  | some x => decide (x = c)
  | none => false

/-- `delivery_class`: `when(shipping_delta < 0) -> "Early";
when(shipping_delta == 0) -> "On Time"; otherwise "Late"`. -/
def delivery_class (r : NRow) : String :=
  if condLt (shipping_delta r) 0 then "Early"
  else if condEq (shipping_delta r) 0 then "On Time"
  else "Late"

/-- `shipping_mode_clean`: `when(sched == 0) -> "Same Day";
when(sched <= 2) -> "First Class"; when(sched == 3) -> "Second Class";
otherwise "Standard Class"`. -/
def shipping_mode_clean (r : NRow) : String :=
  if condEq r.days_for_shipment_scheduled 0 then "Same Day"
  else if condLe r.days_for_shipment_scheduled 2 then "First Class"
  else if condEq r.days_for_shipment_scheduled 3 then "Second Class"
  else "Standard Class"

/-- `price_segment`: `when(price < 60) -> "Budget";
when(price <= 250) -> "Mainstream"; otherwise "Premium"`. -/
def price_segment (r : NRow) : String :=
  if condLt r.order_item_product_price 60 then "Budget"
  else if condLe r.order_item_product_price 250 then "Mainstream"
  else "Premium"

/-! ### Deduplication (`df.unique(maintain_order=True)`) -/

/-- Worker for `uniqueMaintainOrder`: keeps a row unless an equal row was
already seen earlier. -/
def uniqueAux {α : Type} [DecidableEq α] : List α → List α → List α
  | _, [] => []
  | seen, r :: rest =>
    if r ∈ seen then uniqueAux seen rest
    else r :: uniqueAux (r :: seen) rest

/-- `df.unique(maintain_order=True)`: removes rows that are exact
duplicates of an earlier row, keeping the first occurrence of each row in
input order. -/
def uniqueMaintainOrder {α : Type} [DecidableEq α] (l : List α) : List α :=
  uniqueAux [] l

/-! ### The fact pipeline through the window stage (STEPS 2-5)

`SrcRow` is a source row as deduplicated: the retained fields (`core`)
together with the columns dropped right after deduplication
(`order_dayofweek` and `shipping_mode`; the derived `valid_date_check`
helper is a function of the retained date fields, so it never
distinguishes rows that agree on `core`). -/

/-- A source row before the column drop: retained fields plus the
soon-to-be-dropped columns. -/
structure SrcRow : Type where
  core : Row
  order_dayofweek : ℤ
  shipping_mode : String
deriving DecidableEq

/-- A fact row: the retained source fields plus every derived field the
embedding models. -/
structure FactRow : Type where
  core : Row
  gross_sales : ℚ
  discount_amount : ℚ
  net_revenue : ℚ
  order_profit_amount : ℚ
  total_cost : ℚ
  margin_leakage_pct : FVal
  trade_route : String
  category_share_pct : FVal
  market_share_pct : FVal
  state_order_count : ℕ
  state_density_class : String
deriving DecidableEq

/-- Derive the fact fields of one row against the whole (post-drop)
table, in the source's dependency order. -/
def mkFact (tbl : List Row) (r : Row) : FactRow :=
  { core := r
    gross_sales := gross_sales r
    discount_amount := discount_amount r
    net_revenue := net_revenue r
    order_profit_amount := order_profit_amount r
    total_cost := total_cost r
    margin_leakage_pct := margin_leakage_pct r
    trade_route := trade_route r
    category_share_pct := category_share_pct tbl r
    market_share_pct := market_share_pct tbl r
    state_order_count := state_order_count tbl r
    state_density_class := state_density_class tbl r }

/-- Stages 2-5 of the pipeline on the deduplicated source table:
deduplicate over every field, drop `order_dayofweek` / `shipping_mode`,
then derive the financial, categorical and window fields.  The later
enrichment joins add columns without duplicating or dropping rows and the
final sort only permutes, so duplicate fact rows produced here persist to
the output. -/
def silverFactTable (tbl : List SrcRow) : List FactRow :=
  let deduped := uniqueMaintainOrder tbl
  let dropped := deduped.map SrcRow.core
  dropped.map (mkFact dropped)

/-! ### Star-schema enrichment (STEP 6 / STEP 5): three left joins -/

/-- Null-rejecting key-component equality: a null key component never
matches anything (polars joins with `join_nulls=False`). -/
def optEq (a b : Option String) : Bool :=
  match a, b with
  | some x, some y => decide (x = y)
  | _, _ => false

/-- A row of the geography dimension table: the four natural-key columns
and the surrogate key it contributes. -/
structure DimGeoRow : Type where
  order_state : Option String
  order_country : Option String
  order_region : Option String
  market : Option String
  geo_id : ℤ
deriving DecidableEq

/-- A row of the customer-geography dimension table. -/
structure DimCustRow : Type where
  customer_state : Option String
  customer_country : Option String
  customer_geo_id : ℤ
deriving DecidableEq

/-- A row of the product dimension table. -/
structure DimProdRow : Type where
  product_name : Option String
  category_name : Option String
  department_name : Option String
  product_key : ℤ
deriving DecidableEq

/-- The natural-key tuple of a geography dimension row. -/
def geoKey (d : DimGeoRow) :
    Option String × Option String × Option String × Option String :=
  (d.order_state, d.order_country, d.order_region, d.market)

/-- The natural-key tuple of a customer-geography dimension row. -/
def custKey (d : DimCustRow) : Option String × Option String :=
  (d.customer_state, d.customer_country)

/-- The natural-key tuple of a product dimension row. -/
def prodKey (d : DimProdRow) : Option String × Option String × Option String :=
  (d.product_name, d.category_name, d.department_name)

/-- A fact row entering the enrichment stage: the nine natural-key
columns the three joins consume, plus an opaque stand-in for every other
fact column. -/
structure EnrichRow : Type where
  order_state : Option String
  order_country : Option String
  order_region : Option String
  market : Option String
  customer_state : Option String
  customer_country : Option String
  product_name : Option String
  category_name : Option String
  department_name : Option String
  payload : ℕ
deriving DecidableEq

/-- The fact row after the geo join and the drop of its four natural
keys. -/
structure EnrichRow1 : Type where
  customer_state : Option String
  customer_country : Option String
  product_name : Option String
  category_name : Option String
  department_name : Option String
  payload : ℕ
  geo_id : Option ℤ
deriving DecidableEq

/-- The fact row after the customer join and the drop of its two natural
keys. -/
structure EnrichRow2 : Type where
  product_name : Option String
  category_name : Option String
  department_name : Option String
  payload : ℕ
  geo_id : Option ℤ
  customer_geo_id : Option ℤ
deriving DecidableEq

/-- The enriched fact row after all three joins and natural-key drops. -/
structure EnrichOut : Type where
  payload : ℕ
  geo_id : Option ℤ
  customer_geo_id : Option ℤ
  product_key : Option ℤ
deriving DecidableEq

/-- One fact row's contribution to a left-outer join: a row with no
matching dimension row is emitted once with no dimension payload,
otherwise once per matching dimension row. -/
def joinRow {α β γ : Type} (dim : List β) (km : α → β → Bool)
    (mg : α → Option β → γ) (r : α) : List γ :=
  match dim.filter (fun d => km r d) with
  | [] => [mg r none]
  | ms => ms.map (fun d => mg r (some d))

/-- Generic left-outer join: every fact row is kept and contributes its
`joinRow` rows. -/
def leftJoin {α β γ : Type} (fact : List α) (dim : List β)
    (km : α → β → Bool) (mg : α → Option β → γ) : List γ :=
  fact.flatMap (joinRow dim km mg)

/-- Key match for the geo join: `on=["order_state", "order_country",
"order_region", "market"]`. -/
def geoKeyMatch (r : EnrichRow) (d : DimGeoRow) : Bool :=
  optEq r.order_state d.order_state && optEq r.order_country d.order_country
    && optEq r.order_region d.order_region && optEq r.market d.market

/-- Merge for the geo join: drop the four natural keys, attach
`geo_id` (null when unmatched). -/
def mergeGeo (r : EnrichRow) (d : Option DimGeoRow) : EnrichRow1 :=
  { customer_state := r.customer_state
    customer_country := r.customer_country
    product_name := r.product_name
    category_name := r.category_name
    department_name := r.department_name
    payload := r.payload
    geo_id := d.map DimGeoRow.geo_id }

/-- Key match for the customer join: `on=["customer_state",
"customer_country"]`. -/
def custKeyMatch (r : EnrichRow1) (d : DimCustRow) : Bool :=
  optEq r.customer_state d.customer_state
    && optEq r.customer_country d.customer_country

/-- Merge for the customer join: drop the two natural keys, attach
`customer_geo_id`. -/
def mergeCust (r : EnrichRow1) (d : Option DimCustRow) : EnrichRow2 :=
  { product_name := r.product_name
    category_name := r.category_name
    department_name := r.department_name
    payload := r.payload
    geo_id := r.geo_id
    customer_geo_id := d.map DimCustRow.customer_geo_id }

/-- Key match for the product join: `on=["product_name", "category_name",
"department_name"]`. -/
def prodKeyMatch (r : EnrichRow2) (d : DimProdRow) : Bool :=
  optEq r.product_name d.product_name && optEq r.category_name d.category_name
    && optEq r.department_name d.department_name

/-- Merge for the product join: drop the three natural keys, attach
`product_key`. -/
def mergeProd (r : EnrichRow2) (d : Option DimProdRow) : EnrichOut :=
  { payload := r.payload
    geo_id := r.geo_id
    customer_geo_id := r.customer_geo_id
    product_key := d.map DimProdRow.product_key }

/-- The three sequential left joins with natural-key drops (STEP 6). -/
def enrich (fact : List EnrichRow) (g : List DimGeoRow)
    (c : List DimCustRow) (p : List DimProdRow) : List EnrichOut :=
  leftJoin (leftJoin (leftJoin fact g geoKeyMatch mergeGeo) c custKeyMatch mergeCust)
    p prodKeyMatch mergeProd

/-! ### Batch coordinator (PHASE 2 / STEP 8: per-file try, archive, except) -/

/-- The abstract outcome of each fallible operation of one file's
pipeline body: whether the load (read_csv), the transformation stages
(validate/derive/window/enrich), and the output write would succeed. -/
structure PipelineOutcomes : Type where
  loadOk : Bool
  transformOk : Bool
  writeOk : Bool
deriving DecidableEq

/-- The externally visible state of one source file after its iteration
of the batch loop. -/
structure FileState : Type where
  atSource : Bool
  archived : Bool
  written : Bool
deriving DecidableEq

/-- Before processing: the file sits at its original location, nothing
written, nothing archived. -/
def initFileState : FileState :=
  { atSource := true, archived := false, written := false }

/-- Run the steps of a try-block in order: a failing step raises, leaving
the state as it was at the raise and skipping every later step. -/
def runSteps : List (FileState → Option FileState) → FileState → FileState
  | [], s => s
  | step :: rest, s =>
    match step s with
    | none => s
    | some s₁ => runSteps rest s₁

/-- The body of one batch iteration: load, transform, write the output
artifact, then move the source file to the archive.  The archival move is
the last statement of the try-block, so it runs only when every earlier
step succeeded. -/
def fileSteps (f : PipelineOutcomes) : List (FileState → Option FileState) :=
  [fun s => if f.loadOk then some s else none,
   fun s => if f.transformOk then some s else none,
   fun s => if f.writeOk then some { s with written := true } else none,
   fun s => some { s with atSource := false, archived := true }]

/-- Process one file inside the per-file try/except: any raise is caught
and the loop moves on, so the iteration always yields a final state. -/
def processFile (f : PipelineOutcomes) : FileState :=
  runSteps (fileSteps f) initFileState

/-- The batch loop: every discovered file is processed, failures
included. -/
def batchRun (files : List PipelineOutcomes) : List FileState :=
  files.map processFile

/-! ## Helper lemmas -/

theorem mem_uniqueAux {α : Type} [DecidableEq α] (l : List α) (seen : List α) (a : α) :
    a ∈ uniqueAux seen l ↔ a ∈ l ∧ a ∉ seen := by
  induction l generalizing seen with
  | nil => simp [uniqueAux]
  | cons r rest ih =>
    rw [uniqueAux]
    by_cases hr : r ∈ seen
    · rw [if_pos hr, ih]
      constructor
      · exact fun ⟨h1, h2⟩ => ⟨List.mem_cons_of_mem _ h1, h2⟩
      · rintro ⟨h1, h2⟩
        rcases List.mem_cons.mp h1 with h | h
        · exact absurd (h ▸ hr) h2
        · exact ⟨h, h2⟩
    · rw [if_neg hr]
      by_cases ha : a = r
      · subst ha
        simp [hr]
      · simp only [List.mem_cons, ha, false_or, ih]

theorem nodup_uniqueAux {α : Type} [DecidableEq α] (l : List α) (seen : List α) :
    (uniqueAux seen l).Nodup := by
  induction l generalizing seen with
  | nil => simp [uniqueAux]
  | cons r rest ih =>
    rw [uniqueAux]
    by_cases hr : r ∈ seen
    · rw [if_pos hr]; exact ih seen
    · rw [if_neg hr]
      refine List.nodup_cons.mpr ⟨?_, ih (r :: seen)⟩
      intro hmem
      exact ((mem_uniqueAux _ _ _).mp hmem).2 (List.mem_cons_self _ _)

theorem sublist_uniqueAux {α : Type} [DecidableEq α] (l : List α) (seen : List α) :
    (uniqueAux seen l).Sublist l := by
  induction l generalizing seen with
  | nil => simp [uniqueAux]
  | cons r rest ih =>
    rw [uniqueAux]
    by_cases hr : r ∈ seen
    · rw [if_pos hr]; exact (ih seen).cons r
    · rw [if_neg hr]; exact (ih (r :: seen)).cons₂ r

theorem sumF_map_fin {α : Type} (l : List α) (f : α → ℚ) :
    sumF (l.map (fun x => FVal.fin (f x))) = FVal.fin ((l.map f).sum) := by
  induction l with
  | nil => rfl
  | cons a t ih =>
    have hstep : sumF (List.map (fun x => FVal.fin (f x)) (a :: t))
        = FVal.add (FVal.fin (f a)) (sumF (List.map (fun x => FVal.fin (f x)) t)) := rfl
    rw [hstep, ih]
    simp [FVal.add]

theorem list_map_div_sum {α : Type} (l : List α) (g : α → ℚ) (S : ℚ) :
    (l.map (fun x => g x / S)).sum = (l.map g).sum / S := by
  induction l with
  | nil => simp
  | cons a t ih => simp [ih, add_div]

theorem share_sum_key {α : Type} (key : α → String) (g : α → ℚ) (tbl : List α) (k : String)
    (h : ((tbl.filter (fun s => key s = k)).map g).sum ≠ 0) :
    sumF ((tbl.filter (fun s => key s = k)).map
      (fun r => FVal.div (.fin (g r))
        (.fin (((tbl.filter (fun s => key s = key r)).map g).sum)))) = FVal.fin 1 := by
  set P := tbl.filter (fun s => key s = k) with hP
  have hkey : ∀ r ∈ P, key r = k := by
    intro r hr
    simpa using (List.mem_filter.mp hr).2
  have hfix : ∀ r ∈ P, tbl.filter (fun s => key s = key r) = P := by
    intro r hr
    rw [hP]
    apply List.filter_congr
    intro s _hs
    rw [hkey r hr]
  have hmap : P.map (fun r => FVal.div (.fin (g r))
      (.fin (((tbl.filter (fun s => key s = key r)).map g).sum)))
      = P.map (fun r => FVal.fin (g r / (P.map g).sum)) := by
    apply List.map_congr_left
    intro r hr
    rw [hfix r hr]
    rw [FVal.div]
    rw [if_neg h]
  rw [hmap, sumF_map_fin, list_map_div_sum]
  rw [div_self h]

theorem replaceFirst_of_not_has (l : List Char) (h : hasEEUU l = false) :
    replaceFirstEEUU l = l := by
  induction l with
  | nil => rfl
  | cons c cs ih =>
    rw [hasEEUU] at h
    rw [Bool.or_eq_false_iff] at h
    rw [replaceFirstEEUU, if_neg (by simp [h.1]), ih h.2]

theorem string_mk_data (s : String) : String.mk s.data = s := rfl

theorem length_joinRow {α β γ : Type} (dim : List β) (km : α → β → Bool)
    (mg : α → Option β → γ) (r : α)
    (h : (dim.filter (fun d => km r d)).length ≤ 1) :
    (joinRow dim km mg r).length = 1 := by
  unfold joinRow
  split
  · rfl
  · next ms heq =>
    rw [List.length_map]
    cases hm : List.filter (fun d => km r d) dim with
    | nil => exact absurd hm heq
    | cons d ds =>
      rw [hm] at h
      cases ds with
      | nil => rfl
      | cons d2 ds2 => simp at h

theorem filter_length_le_one {α κ : Type} (key : α → κ) (p : α → Bool)
    (l : List α) (hn : (l.map key).Nodup)
    (hk : ∀ a b, p a = true → p b = true → key a = key b) :
    (l.filter p).length ≤ 1 := by
  induction l with
  | nil => simp
  | cons a t ih =>
    rw [List.map_cons, List.nodup_cons] at hn
    by_cases hp : p a = true
    · rw [List.filter_cons_of_pos hp]
      have ht : t.filter p = [] := by
        apply List.filter_eq_nil_iff.mpr
        intro b hb hpb
        exact hn.1 (by
          rw [hk a b hp hpb]
          exact List.mem_map_of_mem key hb)
      rw [ht]
      simp
    · rw [List.filter_cons_of_neg (by simpa using hp)]
      exact ih hn.2

theorem length_leftJoin {α β γ : Type} (fact : List α) (dim : List β)
    (km : α → β → Bool) (mg : α → Option β → γ)
    (h : ∀ r, (dim.filter (fun d => km r d)).length ≤ 1) :
    (leftJoin fact dim km mg).length = fact.length := by
  unfold leftJoin
  rw [List.length_flatMap]
  have hc : List.map (List.length ∘ joinRow dim km mg) fact
      = List.map (fun _ => 1) fact :=
    List.map_congr_left (fun r _ => length_joinRow dim km mg r (h r))
  rw [hc]
  simp [List.map_const]

theorem optEq_unique {a b₁ b₂ : Option String}
    (h₁ : optEq a b₁ = true) (h₂ : optEq a b₂ = true) : b₁ = b₂ := by
  cases a with
  | none => simp [optEq] at h₁
  | some x =>
    cases b₁ with
    | none => simp [optEq] at h₁
    | some y₁ =>
      cases b₂ with
      | none => simp [optEq] at h₂
      | some y₂ =>
        simp [optEq] at h₁ h₂
        rw [← h₁, ← h₂]

theorem geoKeyMatch_unique (r : EnrichRow) (d₁ d₂ : DimGeoRow)
    (h₁ : geoKeyMatch r d₁ = true) (h₂ : geoKeyMatch r d₂ = true) :
    geoKey d₁ = geoKey d₂ := by
  rw [geoKeyMatch] at h₁ h₂
  simp only [Bool.and_eq_true] at h₁ h₂
  obtain ⟨⟨⟨hs₁, hc₁⟩, hr₁⟩, hm₁⟩ := h₁
  obtain ⟨⟨⟨hs₂, hc₂⟩, hr₂⟩, hm₂⟩ := h₂
  rw [geoKey, geoKey, optEq_unique hs₁ hs₂, optEq_unique hc₁ hc₂,
    optEq_unique hr₁ hr₂, optEq_unique hm₁ hm₂]

theorem custKeyMatch_unique (r : EnrichRow1) (d₁ d₂ : DimCustRow)
    (h₁ : custKeyMatch r d₁ = true) (h₂ : custKeyMatch r d₂ = true) :
    custKey d₁ = custKey d₂ := by
  rw [custKeyMatch] at h₁ h₂
  simp only [Bool.and_eq_true] at h₁ h₂
  obtain ⟨hs₁, hc₁⟩ := h₁
  obtain ⟨hs₂, hc₂⟩ := h₂
  rw [custKey, custKey, optEq_unique hs₁ hs₂, optEq_unique hc₁ hc₂]

theorem prodKeyMatch_unique (r : EnrichRow2) (d₁ d₂ : DimProdRow)
    (h₁ : prodKeyMatch r d₁ = true) (h₂ : prodKeyMatch r d₂ = true) :
    prodKey d₁ = prodKey d₂ := by
  rw [prodKeyMatch] at h₁ h₂
  simp only [Bool.and_eq_true] at h₁ h₂
  obtain ⟨⟨hp₁, hc₁⟩, hd₁⟩ := h₁
  obtain ⟨⟨hp₂, hc₂⟩, hd₂⟩ := h₂
  rw [prodKey, prodKey, optEq_unique hp₁ hp₂, optEq_unique hc₁ hc₂,
    optEq_unique hd₁ hd₂]

/-! ## Concrete rows used by counterexamples and witnesses -/

/-- A row whose profit exactly cancels its discount
(`order_profit_amount + discount_amount = 0`) while the discount itself is
nonzero: price 10, quantity 1, discount rate 1/2, profit ratio -1. -/
def cexRow1 : Row :=
  { order_item_product_price := 10, order_item_quantity := 1,
    order_item_discount_rate := 1/2, order_item_profit_ratio := -1,
    category_name := "Office", market := "EU", order_state := some "CA",
    customer_country := "USA", customer_state := "CA", order_country := "USA" }

/-- A row with zero gross sales (price 0), so its partition's gross-sales
total is zero. -/
def zRow4 : Row :=
  { order_item_product_price := 0, order_item_quantity := 1,
    order_item_discount_rate := 0, order_item_profit_ratio := 0,
    category_name := "Office", market := "EU", order_state := some "CA",
    customer_country := "USA", customer_state := "CA", order_country := "USA" }

/-- A row with nonzero gross sales. -/
def wRow4 : Row :=
  { order_item_product_price := 2, order_item_quantity := 1,
    order_item_discount_rate := 0, order_item_profit_ratio := 0,
    category_name := "Office", market := "EU", order_state := some "CA",
    customer_country := "USA", customer_state := "CA", order_country := "USA" }

/-- A row whose nullable classifier inputs are all null. -/
def wNRow : NRow :=
  { order_item_product_price := none
    days_for_shipping_real := none
    days_for_shipment_scheduled := none }

/-- A row with a non-null `order_state`. -/
def wRow9 : Row :=
  { order_item_product_price := 1, order_item_quantity := 1,
    order_item_discount_rate := 0, order_item_profit_ratio := 0,
    category_name := "Office", market := "EU", order_state := some "CA",
    customer_country := "USA", customer_state := "CA", order_country := "USA" }

/-- A row with a null `order_state`. -/
def nullRow9 : Row :=
  { order_item_product_price := 1, order_item_quantity := 1,
    order_item_discount_rate := 0, order_item_profit_ratio := 0,
    category_name := "Office", market := "EU", order_state := none,
    customer_country := "USA", customer_state := "CA", order_country := "USA" }

/-- A `customer_country` that is not the literal `EE. UU.` but matches the
`EE. UU.` regex (the dots are wildcards). -/
def cexRow8b : Row :=
  { order_item_product_price := 1, order_item_quantity := 1,
    order_item_discount_rate := 0, order_item_profit_ratio := 0,
    category_name := "Office", market := "EU", order_state := some "CA",
    customer_country := "EEX UUY", customer_state := "CA", order_country := "Japan" }

/-- A `customer_country` the `EE. UU.` regex does not match anywhere. -/
def wRow8 : Row :=
  { order_item_product_price := 1, order_item_quantity := 1,
    order_item_discount_rate := 0, order_item_profit_ratio := 0,
    category_name := "Office", market := "EU", order_state := some "CA",
    customer_country := "Japan", customer_state := "Tokyo", order_country := "USA" }

/-- The retained fields shared by the two C7 source rows. -/
def zRow7 : Row :=
  { order_item_product_price := 0, order_item_quantity := 1,
    order_item_discount_rate := 0, order_item_profit_ratio := 0,
    category_name := "Office", market := "EU", order_state := some "CA",
    customer_country := "USA", customer_state := "CA", order_country := "USA" }

/-- Source row equal to `src72` except in the dropped `shipping_mode`. -/
def src71 : SrcRow := { core := zRow7, order_dayofweek := 2, shipping_mode := "First Class" }

/-- Source row equal to `src71` except in the dropped `shipping_mode`. -/
def src72 : SrcRow := { core := zRow7, order_dayofweek := 2, shipping_mode := "Same Day" }

/-- A one-row geo dimension table with distinct keys. -/
def wGeo : List DimGeoRow := [⟨some "CA", some "USA", some "West", some "NA", 1⟩]

/-- A one-row customer dimension table with distinct keys. -/
def wCust : List DimCustRow := [⟨some "CA", some "USA", 11⟩]

/-- A one-row product dimension table with distinct keys. -/
def wProd : List DimProdRow := [⟨some "Desk", some "Office", some "Furniture", 21⟩]

/-- A fact row matching every dimension table. -/
def wFactRow : EnrichRow :=
  ⟨some "CA", some "USA", some "West", some "NA", some "CA", some "USA",
   some "Desk", some "Office", some "Furniture", 5⟩

/-- A fact row matching no dimension table (all-null keys). -/
def wNoMatchRow : EnrichRow :=
  ⟨none, none, none, none, none, none, none, none, none, 7⟩

/-! ## Claim theorems -/

/-- C1 counterexample: the claim "whenever `order_profit_amount +
discount_amount` equals 0, `margin_leakage_pct` equals exactly 0.0" is
false: on `cexRow1` the denominator is 0 but the numerator is 5, the
division yields +inf, and `fill_nan` does not coerce infinities, so
`margin_leakage_pct` is +inf, not 0.0. -/
theorem margin_leakage_claim_cex :
    order_profit_amount cexRow1 + discount_amount cexRow1 = 0 ∧
    margin_leakage_pct cexRow1 ≠ FVal.fin 0 := by
  constructor
  · norm_num [order_profit_amount, discount_amount, net_revenue, gross_sales, cexRow1]
  · have hp : margin_leakage_pct cexRow1 = FVal.pinf := by
      norm_num [margin_leakage_pct, order_profit_amount, discount_amount, net_revenue,
        gross_sales, cexRow1, FVal.div, FVal.fillNan]
    rw [hp]
    decide

/-- C1 (amended): when `order_profit_amount + discount_amount = 0`,
`margin_leakage_pct` is 0.0 exactly when `discount_amount` is also 0 (the
0/0 NaN case that `fill_nan(0.0)` coerces); a nonzero `discount_amount`
yields a signed infinity, which `fill_nan` propagates unchanged. -/
theorem margin_leakage_zero_denominator (r : Row)
    (h : order_profit_amount r + discount_amount r = 0) :
    margin_leakage_pct r =
      (if discount_amount r = 0 then FVal.fin 0
       else if 0 < discount_amount r then FVal.pinf else FVal.ninf) := by
  unfold margin_leakage_pct
  rw [h]
  by_cases hd : discount_amount r = 0
  · simp [hd, FVal.div, FVal.fillNan]
  · by_cases hp : 0 < discount_amount r
    · simp [hd, hp, FVal.div, FVal.fillNan]
    · simp [hd, hp, FVal.div, FVal.fillNan]

/-- Witness for C1's theorem at `cexRow1`. -/
theorem margin_leakage_zero_denominator_witness :
    margin_leakage_pct cexRow1 = FVal.pinf ∧
    order_profit_amount cexRow1 + discount_amount cexRow1 = 0 := by
  have h0 : order_profit_amount cexRow1 + discount_amount cexRow1 = 0 := by
    norm_num [order_profit_amount, discount_amount, net_revenue, gross_sales, cexRow1]
  have h := margin_leakage_zero_denominator cexRow1 h0
  rw [h]
  refine ⟨?_, h0⟩
  norm_num [discount_amount, gross_sales, cexRow1]

/-- C2: for every row, `net_revenue = gross_sales - discount_amount` and
`total_cost = net_revenue - order_profit_amount` hold exactly in the
embedded arithmetic. -/
theorem financial_chain_invariant (r : Row) :
    net_revenue r = gross_sales r - discount_amount r ∧
    total_cost r = net_revenue r - order_profit_amount r :=
  ⟨rfl, rfl⟩

/-- C3: when each dimension table is unique-keyed on its join columns, the
three sequential left joins preserve the fact row count, and a fact row
matching no dimension row survives with null surrogate fields. -/
theorem enrichment_preserves_rowcount (fact : List EnrichRow)
    (g : List DimGeoRow) (c : List DimCustRow) (p : List DimProdRow)
    (hg : (g.map geoKey).Nodup) (hc : (c.map custKey).Nodup)
    (hp : (p.map prodKey).Nodup) :
    (enrich fact g c p).length = fact.length ∧
    (∀ r : EnrichRow, g.filter (fun d => geoKeyMatch r d) = [] →
      c.filter (fun d => custKeyMatch (mergeGeo r none) d) = [] →
      p.filter (fun d => prodKeyMatch (mergeCust (mergeGeo r none) none) d) = [] →
      enrich [r] g c p = [⟨r.payload, none, none, none⟩]) := by
  constructor
  · rw [enrich]
    rw [length_leftJoin _ _ _ _
      (fun r => filter_length_le_one prodKey _ p hp (prodKeyMatch_unique r))]
    rw [length_leftJoin _ _ _ _
      (fun r => filter_length_le_one custKey _ c hc (custKeyMatch_unique r))]
    exact length_leftJoin _ _ _ _
      (fun r => filter_length_le_one geoKey _ g hg (geoKeyMatch_unique r))
  · intro r h1 h2 h3
    have e1 : joinRow g geoKeyMatch mergeGeo r = [mergeGeo r none] := by
      unfold joinRow; rw [h1]
    have e2 : joinRow c custKeyMatch mergeCust (mergeGeo r none)
        = [mergeCust (mergeGeo r none) none] := by
      unfold joinRow; rw [h2]
    have e3 : joinRow p prodKeyMatch mergeProd (mergeCust (mergeGeo r none) none)
        = [mergeProd (mergeCust (mergeGeo r none) none) none] := by
      unfold joinRow; rw [h3]
    simp only [enrich, leftJoin, List.flatMap_cons, List.flatMap_nil,
      List.append_nil, e1, e2, e3]
    rfl

/-- Witness for C3's theorem on a two-row fact table against one-row
dimension tables. -/
theorem enrichment_preserves_rowcount_witness :
    (enrich [wFactRow, wNoMatchRow] wGeo wCust wProd).length = 2 ∧
    enrich [wNoMatchRow] wGeo wCust wProd = [⟨7, none, none, none⟩] := by
  have h := enrichment_preserves_rowcount [wFactRow, wNoMatchRow] wGeo wCust wProd
    (by decide) (by decide) (by decide)
  exact ⟨h.1, h.2 wNoMatchRow (by decide) (by decide) (by decide)⟩

/-- C4 counterexample: the claim "`category_share_pct` sums to 1.0 within
every `category_name` partition, for every input" is false: a partition
whose gross sales are all 0 divides 0 by 0, producing NaN shares whose sum
is NaN, which is within no tolerance of 1.0. -/
theorem partition_share_claim_cex :
    FVal.within (sumF (([zRow4].filter (fun s => s.category_name = zRow4.category_name)).map
      (category_share_pct [zRow4]))) 1 (1 / 1000000) = false := by
  have h : sumF (([zRow4].filter (fun s => s.category_name = zRow4.category_name)).map
      (category_share_pct [zRow4])) = FVal.nan := by
    norm_num [sumF, category_share_pct, gross_sales, zRow4, FVal.div, FVal.add]
  rw [h]
  rfl

/-- C4 (amended): within every `category_name` partition whose gross-sales
total is nonzero, the `category_share_pct` values sum to exactly 1; the
analogous property holds for `market_share_pct` within every `market`
partition with nonzero total.  The two properties are independent: each
holds under its own nonzero-total condition alone. -/
theorem partition_share_sums (tbl : List Row) (r : Row) :
    (((tbl.filter (fun s => s.category_name = r.category_name)).map gross_sales).sum ≠ 0 →
      sumF ((tbl.filter (fun s => s.category_name = r.category_name)).map
        (category_share_pct tbl)) = FVal.fin 1) ∧
    (((tbl.filter (fun s => s.market = r.market)).map gross_sales).sum ≠ 0 →
      sumF ((tbl.filter (fun s => s.market = r.market)).map
        (market_share_pct tbl)) = FVal.fin 1) := by
  constructor
  · intro hc
    have h := share_sum_key (fun s => s.category_name) gross_sales tbl r.category_name hc
    simpa [category_share_pct] using h
  · intro hm
    have h := share_sum_key (fun s => s.market) gross_sales tbl r.market hm
    simpa [market_share_pct] using h

/-- Witness for C4's theorem on a one-row table with nonzero gross sales. -/
theorem partition_share_sums_witness :
    sumF (([wRow4].filter (fun s => s.category_name = wRow4.category_name)).map
      (category_share_pct [wRow4])) = FVal.fin 1 ∧
    sumF (([wRow4].filter (fun s => s.market = wRow4.market)).map
      (market_share_pct [wRow4])) = FVal.fin 1 :=
  ⟨(partition_share_sums [wRow4] wRow4).1 (by norm_num [gross_sales, wRow4]),
   (partition_share_sums [wRow4] wRow4).2 (by norm_num [gross_sales, wRow4])⟩

/-- C5: a source file is archived exactly when its output artifact was
written; a failed file is left untouched at its original location, and
every file of the batch yields a result (a single failure never aborts
the batch). -/
theorem batch_archive_iff_written (files : List PipelineOutcomes) (f : PipelineOutcomes)
    (hf : f ∈ files) :
    (batchRun files).length = files.length ∧
    processFile f ∈ batchRun files ∧
    ((processFile f).archived = true ↔ (processFile f).written = true) ∧
    ((processFile f).archived = false →
      (processFile f).atSource = true ∧ (processFile f).written = false) := by
  refine ⟨by simp [batchRun], List.mem_map_of_mem _ hf, ?_, ?_⟩ <;>
    obtain ⟨l, t, w⟩ := f <;>
    cases l <;> cases t <;> cases w <;>
    simp [processFile, fileSteps, runSteps, initFileState]

/-- Witness for C5's theorem on a batch of one succeeding and one
write-failing file. -/
theorem batch_archive_iff_written_witness :
    (batchRun [⟨true, true, true⟩, ⟨true, true, false⟩]).length = 2 ∧
    (processFile ⟨true, true, false⟩).archived = false ∧
    (processFile ⟨true, true, false⟩).atSource = true ∧
    (processFile ⟨true, true, true⟩).archived = true := by
  have h := batch_archive_iff_written [⟨true, true, true⟩, ⟨true, true, false⟩]
    ⟨true, true, false⟩ (by simp)
  have h2 := batch_archive_iff_written [⟨true, true, true⟩, ⟨true, true, false⟩]
    ⟨true, true, true⟩ (by simp)
  refine ⟨h.1, ?_, ?_, ?_⟩
  · by_contra hcon
    have := h.2.2.1.mp (by
      revert hcon
      cases hx : (processFile ⟨true, true, false⟩).archived <;> simp [hx])
    revert this
    simp [processFile, fileSteps, runSteps, initFileState]
  · exact ((h.2.2.2) (by simp [processFile, fileSteps, runSteps, initFileState])).1
  · exact h2.2.2.1.mpr (by simp [processFile, fileSteps, runSteps, initFileState])

/-- C6: deduplication removes exactly-duplicate rows while preserving
first-occurrence order: the result has no duplicates, is a sublist of the
input, keeps exactly the input's elements, and on `[A, B, A, C]` with `A`
duplicated it returns `[A, B, C]`. -/
theorem unique_removes_exact_duplicates {α : Type} [DecidableEq α]
    (l : List α) (A B C : α) (hAB : A ≠ B) (hAC : A ≠ C) (hBC : B ≠ C) :
    (uniqueMaintainOrder l).Nodup ∧
    (uniqueMaintainOrder l).Sublist l ∧
    (∀ a, a ∈ uniqueMaintainOrder l ↔ a ∈ l) ∧
    uniqueMaintainOrder [A, B, A, C] = [A, B, C] := by
  refine ⟨nodup_uniqueAux l [], sublist_uniqueAux l [], fun a => ?_, ?_⟩
  · rw [uniqueMaintainOrder, mem_uniqueAux]; simp
  · simp [uniqueMaintainOrder, uniqueAux, hAB.symm, hAC.symm, hBC.symm]

/-- Witness for C6's theorem at the numeric fixture `[1, 2, 1, 3]`. -/
theorem unique_removes_exact_duplicates_witness :
    uniqueMaintainOrder [(1 : ℕ), 2, 1, 3] = [1, 2, 3] ∧
    (uniqueMaintainOrder [(1 : ℕ), 2, 1, 3]).Nodup := by
  have h := unique_removes_exact_duplicates [(1 : ℕ), 2, 1, 3] 1 2 3
    (by decide) (by decide) (by decide)
  exact ⟨h.2.2.2, h.1⟩

/-- C7 counterexample: the claim "no two fact rows of the output are fully
duplicate" is false: `src71` and `src72` differ only in the dropped
`shipping_mode` column, both survive deduplication, and after the column
drop and derivations the fact table holds two identical rows. -/
theorem fact_table_duplicate_cex :
    ¬ (silverFactTable [src71, src72]).Nodup := by
  have h : silverFactTable [src71, src72]
      = [mkFact [zRow7, zRow7] zRow7, mkFact [zRow7, zRow7] zRow7] := by
    simp [silverFactTable, uniqueMaintainOrder, uniqueAux, src71, src72]
  rw [h]
  simp

/-- C7 (amended): after deduplication no two rows are fully duplicate
across all pre-drop fields (including `shipping_mode` and
`order_dayofweek`); the derived fact table is duplicate-free whenever the
retained (post-drop) fields alone are still pairwise distinct, but rows
differing only in dropped columns may collapse into duplicate fact rows. -/
theorem dedup_unique_before_drop (tbl : List SrcRow) :
    (uniqueMaintainOrder tbl).Nodup ∧
    (((uniqueMaintainOrder tbl).map SrcRow.core).Nodup →
      (silverFactTable tbl).Nodup) := by
  refine ⟨nodup_uniqueAux tbl [], fun h => ?_⟩
  have e : silverFactTable tbl
      = ((uniqueMaintainOrder tbl).map SrcRow.core).map
          (mkFact ((uniqueMaintainOrder tbl).map SrcRow.core)) := rfl
  rw [e]
  exact h.map (fun a b hab => congrArg FactRow.core hab)

/-- Witness for C7's theorem on a singleton source table. -/
theorem dedup_unique_before_drop_witness :
    (uniqueMaintainOrder [src71]).Nodup ∧ (silverFactTable [src71]).Nodup :=
  ⟨(dedup_unique_before_drop [src71]).1,
   (dedup_unique_before_drop [src71]).2 (by simp [uniqueMaintainOrder, uniqueAux])⟩

/-- C8 counterexample: the claim "normalization rewrites exactly the one
literal value `EE. UU.` and all other values pass through unchanged" is
false: `EEX UUY` is not that literal, yet the regex replace rewrites it to
`USA`, so the source's `trade_route` differs from the spec's. -/
theorem trade_route_claim_cex :
    trade_route cexRow8b ≠ trade_route_per_spec cexRow8b := by
  simp [trade_route, trade_route_per_spec, cexRow8b, strReplaceEEUU, replaceFirstEEUU,
    matchesAt, matchCharPat, patEEUU]

/-- C8 (amended): `trade_route` concatenates the normalized
`customer_country` with `customer_state` and `order_country`; the literal
`EE. UU.` is rewritten to `USA`, and a `customer_country` in which the
`EE. UU.` regex (dots are wildcards) matches nowhere passes through
unchanged — but any value containing a regex match has its leftmost match
replaced. -/
theorem trade_route_normalization (r : Row) :
    (hasEEUU r.customer_country.data = false →
      trade_route r = r.customer_country ++ "_" ++ r.customer_state
        ++ " -> " ++ r.order_country) ∧
    (r.customer_country = "EE. UU." →
      trade_route r = "USA" ++ "_" ++ r.customer_state ++ " -> " ++ r.order_country) := by
  constructor
  · intro h
    rw [trade_route, strReplaceEEUU, replaceFirst_of_not_has _ h, string_mk_data]
  · intro h
    rw [trade_route, h]
    have e : strReplaceEEUU "EE. UU." = "USA" := by decide
    rw [e]

/-- Witness for C8's theorem at a match-free `customer_country`. -/
theorem trade_route_normalization_witness :
    trade_route wRow8 = "Japan" ++ "_" ++ "Tokyo" ++ " -> " ++ "USA" :=
  (trade_route_normalization wRow8).1 (by decide)

/-- C9 counterexample: the claim "`state_order_count` equals the number of
rows sharing the row's `order_state`" is false: for a single row whose
`order_state` is null, the partition has one row but the non-null count is
0. -/
theorem state_order_count_claim_cex :
    state_order_count [nullRow9] nullRow9
      ≠ ([nullRow9].filter (fun s => s.order_state = nullRow9.order_state)).length := by
  simp [state_order_count, nullRow9]

/-- C9 (amended): for rows with a non-null `order_state`,
`state_order_count` equals the size of the row's `order_state` partition;
for rows with a null `order_state` it is 0 (polars `count` skips nulls);
and `state_density_class` applies the >100 / <10 thresholds to that
count. -/
theorem state_order_count_corrected (tbl : List Row) (r : Row) :
    (∀ v, r.order_state = some v →
      state_order_count tbl r
        = (tbl.filter (fun s => s.order_state = r.order_state)).length) ∧
    (r.order_state = none → state_order_count tbl r = 0) ∧
    state_density_class tbl r =
      (if state_order_count tbl r > 100 then "Strategic Hub"
       else if state_order_count tbl r < 10 then "Expansion Zone"
       else "Standard Zone") := by
  refine ⟨fun v hv => ?_, fun hv => ?_, rfl⟩
  · rw [state_order_count]
    congr 1
    apply List.filter_eq_self.mpr
    intro s hs
    have hss : s.order_state = r.order_state := by simpa using (List.mem_filter.mp hs).2
    simp [hss, hv]
  · rw [state_order_count]
    rw [List.filter_eq_nil_iff.mpr]
    · rfl
    · intro s hs
      have hss : s.order_state = r.order_state := by simpa using (List.mem_filter.mp hs).2
      simp [hss, hv]

/-- Witness for C9's theorem on a one-row table with a non-null state. -/
theorem state_order_count_corrected_witness :
    state_order_count [wRow9] wRow9 = 1 ∧
    state_density_class [wRow9] wRow9 = "Expansion Zone" := by
  have h := (state_order_count_corrected [wRow9] wRow9).1 "CA" rfl
  have hcount : state_order_count [wRow9] wRow9 = 1 := by
    rw [h]; simp
  refine ⟨hcount, ?_⟩
  rw [(state_order_count_corrected [wRow9] wRow9).2.2, hcount]
  simp

/-- C10: a null scrutinee selects no `when` branch, so the chain falls to
its `otherwise` label: null price gives `Premium`, null `shipping_delta`
gives `Late`, and null scheduled days gives `Standard Class`. -/
theorem null_scrutinee_otherwise (r : NRow) :
    (r.order_item_product_price = none → price_segment r = "Premium") ∧
    (shipping_delta r = none → delivery_class r = "Late") ∧
    (r.days_for_shipment_scheduled = none → shipping_mode_clean r = "Standard Class") := by
  refine ⟨fun h => ?_, fun h => ?_, fun h => ?_⟩ <;>
    simp [price_segment, delivery_class, shipping_mode_clean, condLt, condLe, condEq, h]

/-- Witness for C10's theorem at the all-null row. -/
theorem null_scrutinee_otherwise_witness :
    price_segment wNRow = "Premium" ∧ delivery_class wNRow = "Late" ∧
    shipping_mode_clean wNRow = "Standard Class" :=
  ⟨(null_scrutinee_otherwise wNRow).1 (by simp [wNRow]),
   (null_scrutinee_otherwise wNRow).2.1 (by simp [shipping_delta, wNRow]),
   (null_scrutinee_otherwise wNRow).2.2 (by simp [wNRow])⟩
